import Mathlib

/-!
# sriovnet: SR-IOV virtual-function bookkeeping

A shallow embedding of `src/github.com/Mellanox/sriovnet/sriovnet.go`.

* A `*VfObj` is an address (`VfPtr`) into a store (`Mem`); a handle's `List`
  is a list of such addresses, exactly as the Go slice `[]*VfObj`.
* A Go `error` is `Option Err`: `none` is `nil`.
* Everything the file calls but does not define (the sysfs helpers of the
  package, netlink, the uuid generator) is a field of `Sys W`, a step function
  on an arbitrary world state `W`, so that every outcome of every I/O step is
  covered.
* `fmt.Printf` / `fmt.Println` only write to standard output and are left out.
-/

namespace Sriovnet

/-- The message carried by a non-nil Go `error`. -/
abbrev Err := String

deriving instance DecidableEq for Except

/-- The struct `VfObj` (sriovnet.go, lines 13-19). -/
structure VfObj where
  Index : Int
  PcidevName : String
  NetdevName : String
  Bound : Bool
  Allocated : Bool
deriving DecidableEq, Repr

/-- A `*VfObj`: the address of a record in the store. -/
abbrev VfPtr := Nat

/-- The store of `VfObj` records: the record at every address, and the next
address a `&vfObj` of a fresh variable gets. -/
structure Mem where
  objs : VfPtr → VfObj
  next : Nat

/-- Assignment through a pointer: the record at `p` becomes `v`. -/
def Mem.write (m : Mem) (p : VfPtr) (v : VfObj) : Mem :=
  { objs := fun q => if q = p then v else m.objs q, next := m.next }

/-- The expression `&vfObj` for a fresh variable holding `v`. -/
def Mem.alloc (m : Mem) (v : VfObj) : VfPtr × Mem :=
  (m.next, { objs := fun q => if q = m.next then v else m.objs q, next := m.next + 1 })

/-- A byte. -/
abbrev Byte := Fin 256

/-- What the file reads of a `netlink.Link`: the two attributes of `Attrs()`
it uses. A hardware address is a list of bytes. -/
structure Link where
  EncapType : String
  HardwareAddr : List Byte
deriving DecidableEq, Repr

/-- The struct `PfNetdevHandle` (lines 21-26). -/
structure PfNetdevHandle where
  PfNetdevName : String
  pfLinkHandle : Link
  List : List VfPtr
deriving DecidableEq, Repr

/-! ## Allocation bookkeeping (lines 313-354) -/

/-- The `for _, vf := range handle.List` loop of `AllocateVf` on the rest of
the list, with the `return` after the loop as its base case. -/
def AllocateVf.loop (handle : PfNetdevHandle) : List VfPtr → Mem → Except Err VfPtr × Mem
  | [], m => (.error ("All Vfs for " ++ handle.PfNetdevName ++ " are allocated."), m)
  | vf :: rest, m =>
    if (m.objs vf).Allocated = true then
      AllocateVf.loop handle rest m
    else
      (.ok vf, m.write vf { m.objs vf with Allocated := true })

/-- The function `AllocateVf` (lines 313-323). -/
def AllocateVf (handle : PfNetdevHandle) (m : Mem) : Except Err VfPtr × Mem :=
  AllocateVf.loop handle handle.List m

/-- The function `FreeVf` (lines 341-344). -/
def FreeVf (_handle : PfNetdevHandle) (vf : VfPtr) (m : Mem) : Mem :=
  m.write vf { m.objs vf with Allocated := false }

/-- The loop of `FreeVfByNetdevName` on the rest of the list. -/
def FreeVfByNetdevName.loop (vfNetdevName : String) : List VfPtr → Mem → Option Err × Mem
  | [], m => (some ("vf netdev " ++ vfNetdevName ++ " not found"), m)
  | vf :: rest, m =>
    if (m.objs vf).Allocated = true ∧ (m.objs vf).NetdevName = vfNetdevName then
      (none, m.write vf { m.objs vf with Allocated := true })
    else
      FreeVfByNetdevName.loop vfNetdevName rest m

/-- The function `FreeVfByNetdevName` (lines 346-354). -/
def FreeVfByNetdevName (handle : PfNetdevHandle) (vfNetdevName : String) (m : Mem) :
    Option Err × Mem :=
  FreeVfByNetdevName.loop vfNetdevName handle.List m

/-! ## The environment

The rest of package `sriovnet` (its sysfs helpers and constants), netlink, the
uuid generator and the pieces of the Go standard library the file calls. -/

/-- The conversion `byte(i)` of a Go `int`: the low eight bits of its
two's-complement representation. -/
def byteOfInt (i : Int) : Byte :=
  ⟨(i % 256).toNat, by omega⟩

/-- A `uuid.UUID`: the array type `[16]byte`. -/
structure UUID where
  bytes : List Byte
  size_eq : bytes.length = 16

/-- The functions and constants `sriovnet.go` uses and does not define. A
function that touches the kernel, the file system or the random source is a
step on the world state `W`; a Go result pair `(x, err)` is the pair of `x` and
an `Option Err`. `LinkByName` and `NewV4` return a value or an error. -/
structure Sys (W : Type) where
  netSysDir : String
  netdevDriverDir : String
  netdevUnbindFile : String
  netdevBindFile : String
  ibSriovPortAdminStateFollow : String
  filepathJoin : List String → String
  TrimPrefix : String → String → String
  Atoi : String → Int × Option Err
  hwAddrString : List Byte → String
  netDevDeviceDir : String → String
  dirExists : String → W → Bool × W
  getMaxVfCount : String → W → (Int × Option Err) × W
  netdevGetEnabledVfCount : String → W → (Int × Option Err) × W
  setMaxVfCount : String → Int → W → Option Err × W
  getVfPciDevList : String → W → (List String × Option Err) × W
  vfNetdevNameFromParent : String → String → W → String × W
  vfPCIDevNameFromVfDir : String → String → W → String × W
  fileWrite : String → String → W → Option Err × W
  ibGetPortAdminState : String → Int → W → (String × Option Err) × W
  ibSetPortAdminState : String → Int → String → W → Option Err × W
  ibSetNodeGuid : String → Int → List Byte → W → Option Err × W
  ibSetPortGuid : String → Int → List Byte → W → Option Err × W
  LinkByName : String → W → Except Err Link × W
  LinkSetUp : Link → W → Option Err × W
  LinkSetVfHardwareAddr : Link → Int → List Byte → W → Option Err × W
  LinkSetVfVlan : Link → Int → Int → W → Option Err × W
  LinkSetVfNodeGUID : Link → Int → List Byte → W → Option Err × W
  LinkSetVfPortGUID : Link → Int → List Byte → W → Option Err × W
  LinkSetVfTrust : Link → Int → Bool → W → Option Err × W
  LinkSetVfSpoofchk : Link → Int → Bool → W → Option Err × W
  NewV4 : W → Except Err UUID × W

section Ops

variable {W : Type}

/-! ## Device level (lines 28-88) -/

/-- The function `SetPFLinkUp` (lines 28-35). -/
def SetPFLinkUp (sys : Sys W) (pfNetdevName : String) (w : W) : Option Err × W :=
  match sys.LinkByName pfNetdevName w with
  | (.error err, w1) => (some err, w1)
  | (.ok handle, w1) => sys.LinkSetUp handle w1

/-- The function `IsSriovSupported` (lines 37-45). -/
def IsSriovSupported (sys : Sys W) (netdevName : String) (w : W) : Bool × W :=
  match sys.getMaxVfCount netdevName w with
  | ((maxvfs, err), w1) => if maxvfs = 0 ∨ err ≠ none then (false, w1) else (true, w1)

/-- The function `EnableSriov` (lines 47-77). When the read of the current count fails the
function returns `err`, the error of the earlier read of the maximum. -/
def EnableSriov (sys : Sys W) (pfNetdevName : String) (w : W) : Option Err × W :=
  let devDirName := sys.netDevDeviceDir pfNetdevName
  match sys.dirExists devDirName w with
  | (devExist, w1) =>
    if devExist = false then
      (some ("device " ++ pfNetdevName ++ " not found"), w1)
    else
      match sys.getMaxVfCount pfNetdevName w1 with
      | ((maxVfCount, err), w2) =>
        if err ≠ none then
          (err, w2)
        else if maxVfCount = 0 then
          (some ("sriov unsupported for device: %!(EXTRA string=" ++ pfNetdevName ++ ")"), w2)
        else
          match sys.netdevGetEnabledVfCount pfNetdevName w2 with
          | ((curVfCount, err2), w3) =>
            if err2 ≠ none then
              (err, w3)
            else if curVfCount = 0 then
              sys.setMaxVfCount pfNetdevName maxVfCount w3
            else
              (none, w3)

/-- The function `DisableSriov` (lines 79-88). -/
def DisableSriov (sys : Sys W) (pfNetdevName : String) (w : W) : Option Err × W :=
  let devDirName := sys.netDevDeviceDir pfNetdevName
  match sys.dirExists devDirName w with
  | (devExist, w1) =>
    if devExist = false then
      (some ("device " ++ pfNetdevName ++ " not found"), w1)
    else
      sys.setMaxVfCount pfNetdevName 0 w1

/-! ## Discovery (lines 90-125) -/

/-- The record one iteration of the loop of `GetPfNetdevHandle` builds for the
entry `vfDir` whose resolved interface name is `vfNetdevName`: the struct
literal of lines 111-114 (the other fields zero), the branch of lines 115-120,
and line 121. -/
def newVfObj (sys : Sys W) (vfDir vfNetdevName : String) : VfObj :=
  let vfIndexStr := sys.TrimPrefix vfDir "virtfn"
  let vfIndex := (sys.Atoi vfIndexStr).1
  let vfObj : VfObj :=
    { Index := vfIndex, PcidevName := vfDir, NetdevName := "", Bound := false,
      Allocated := false }
  let vfObj : VfObj :=
    if vfNetdevName ≠ "" then
      { vfObj with NetdevName := vfNetdevName, Bound := true }
    else
      { vfObj with Bound := false }
  { vfObj with Allocated := false }

/-- The loop of `GetPfNetdevHandle` (lines 107-123) on the rest of the entries;
`acc` is `handle.List` so far. -/
def GetPfNetdevHandle.loop (sys : Sys W) (pfNetdevName : String) :
    List String → List VfPtr → Mem → W → List VfPtr × Mem × W
  | [], acc, m, w => (acc, m, w)
  | vfDir :: rest, acc, m, w =>
    match sys.vfNetdevNameFromParent pfNetdevName vfDir w with
    | (vfNetdevName, w1) =>
      match m.alloc (newVfObj sys vfDir vfNetdevName) with
      | (p, m1) => GetPfNetdevHandle.loop sys pfNetdevName rest (acc ++ [p]) m1 w1

/-- The function `GetPfNetdevHandle` (lines 90-125). -/
def GetPfNetdevHandle (sys : Sys W) (pfNetdevName : String) (m : Mem) (w : W) :
    Except Err PfNetdevHandle × Mem × W :=
  match sys.LinkByName pfNetdevName w with
  | (.error err, w1) => (.error err, m, w1)
  | (.ok pfLinkHandle, w1) =>
    match sys.getVfPciDevList pfNetdevName w1 with
    | ((_, some err), w2) => (.error err, m, w2)
    | ((list, none), w2) =>
      match GetPfNetdevHandle.loop sys pfNetdevName list [] m w2 with
      | (l, m3, w3) =>
        (.ok { PfNetdevName := pfNetdevName, pfLinkHandle := pfLinkHandle, List := l }, m3, w3)

/-! ## Driver binding (lines 127-155) -/

/-- The function `UnbindVf` (lines 127-140). The record is written in the branch
`err != nil`. -/
def UnbindVf (sys : Sys W) (handle : PfNetdevHandle) (vf : VfPtr) (m : Mem) (w : W) :
    Option Err × Mem × W :=
  let cmdFile := sys.filepathJoin
    [sys.netSysDir, handle.PfNetdevName, sys.netdevDriverDir, sys.netdevUnbindFile]
  match sys.vfPCIDevNameFromVfDir handle.PfNetdevName (m.objs vf).PcidevName w with
  | (pciDevName, w1) =>
    match sys.fileWrite cmdFile pciDevName w1 with
    | (err, w2) =>
      if err ≠ none then
        (err, m.write vf { m.objs vf with Bound := false, NetdevName := "" }, w2)
      else
        (err, m, w2)

/-- The function `BindVf` (lines 142-155). The record is written in the branch
`err != nil`. -/
def BindVf (sys : Sys W) (handle : PfNetdevHandle) (vf : VfPtr) (m : Mem) (w : W) :
    Option Err × Mem × W :=
  let cmdFile := sys.filepathJoin
    [sys.netSysDir, handle.PfNetdevName, sys.netdevDriverDir, sys.netdevBindFile]
  match sys.vfPCIDevNameFromVfDir handle.PfNetdevName (m.objs vf).PcidevName w with
  | (pciDevName, w1) =>
    match sys.fileWrite cmdFile pciDevName w1 with
    | (err, w2) =>
      if err ≠ none then
        match sys.vfNetdevNameFromParent handle.PfNetdevName (m.objs vf).PcidevName w2 with
        | (name, w3) =>
          (err, m.write vf { m.objs vf with Bound := true, NetdevName := name }, w3)
      else
        (err, m, w2)

/-! ## Hardware identity (lines 157-261) -/

/-- The function `GetVfDefaultMacAddr` (lines 157-166). -/
def GetVfDefaultMacAddr (sys : Sys W) (vfNetdevName : String) (w : W) :
    (String × Option Err) × W :=
  match sys.LinkByName vfNetdevName w with
  | (.error err1, w1) => (("", some err1), w1)
  | (.ok ethHandle, w1) => ((sys.hwAddrString ethHandle.HardwareAddr, none), w1)

/-- The function `SetVfDefaultMacAddress` (lines 168-175). -/
def SetVfDefaultMacAddress (sys : Sys W) (handle : PfNetdevHandle) (vf : VfPtr) (m : Mem)
    (w : W) : Option Err × W :=
  match sys.LinkByName (m.objs vf).NetdevName w with
  | (.error err1, w1) => (some err1, w1)
  | (.ok ethHandle, w1) =>
    sys.LinkSetVfHardwareAddr handle.pfLinkHandle (m.objs vf).Index ethHandle.HardwareAddr w1

/-- The function `SetVfVlan` (lines 177-179). -/
def SetVfVlan (sys : Sys W) (handle : PfNetdevHandle) (vf : VfPtr) (vlan : Int) (m : Mem)
    (w : W) : Option Err × W :=
  sys.LinkSetVfVlan handle.pfLinkHandle (m.objs vf).Index vlan w

/-- The function `setVfNodeGuid` (lines 181-192). -/
def setVfNodeGuid (sys : Sys W) (handle : PfNetdevHandle) (vf : VfPtr) (guid : List Byte)
    (m : Mem) (w : W) : Option Err × W :=
  match sys.ibSetNodeGuid handle.PfNetdevName (m.objs vf).Index guid w with
  | (none, w1) => (none, w1)
  | (some _, w1) => sys.LinkSetVfNodeGUID handle.pfLinkHandle (m.objs vf).Index guid w1

/-- The function `setVfPortGuid` (lines 194-205). -/
def setVfPortGuid (sys : Sys W) (handle : PfNetdevHandle) (vf : VfPtr) (guid : List Byte)
    (m : Mem) (w : W) : Option Err × W :=
  match sys.ibSetPortGuid handle.PfNetdevName (m.objs vf).Index guid w with
  | (none, w1) => (none, w1)
  | (some _, w1) => sys.LinkSetVfPortGUID handle.pfLinkHandle (m.objs vf).Index guid w1

/-- Lines 213-214 of `SetVfDefaultGUID`: `guid := uuid[0:8]` and then
`guid[7] = byte(vf.Index)`. -/
def defaultGuid (uuid : UUID) (index : Int) : List Byte :=
  (uuid.bytes.take 8).set 7 (byteOfInt index)

/-- The function `SetVfDefaultGUID` (lines 207-223). -/
def SetVfDefaultGUID (sys : Sys W) (handle : PfNetdevHandle) (vf : VfPtr) (m : Mem) (w : W) :
    Option Err × W :=
  match sys.NewV4 w with
  | (.error err, w1) => (some err, w1)
  | (.ok uuid, w1) =>
    let guid := defaultGuid uuid (m.objs vf).Index
    match setVfNodeGuid sys handle vf guid m w1 with
    | (some err, w2) => (some err, w2)
    | (none, w2) => setVfPortGuid sys handle vf guid m w2

/-- The function `SetVfPrivileged` (lines 225-249). -/
def SetVfPrivileged (sys : Sys W) (handle : PfNetdevHandle) (vf : VfPtr) (privileged : Bool)
    (m : Mem) (w : W) : Option Err × W :=
  if handle.pfLinkHandle.EncapType ≠ "ether" then
    (none, w)
  else
    let spoofChk := if privileged then false else true
    let trusted := if privileged then true else false
    let w1 := (sys.LinkSetVfTrust handle.pfLinkHandle (m.objs vf).Index trusted w).2
    let w2 := (sys.LinkSetVfSpoofchk handle.pfLinkHandle (m.objs vf).Index spoofChk w1).2
    (none, w2)

/-- The function `setDefaultHwAddr` (lines 251-261). -/
def setDefaultHwAddr (sys : Sys W) (handle : PfNetdevHandle) (vf : VfPtr) (m : Mem) (w : W) :
    Option Err × W :=
  if handle.pfLinkHandle.EncapType = "ether" then
    SetVfDefaultMacAddress sys handle vf m w
  else if handle.pfLinkHandle.EncapType = "infiniband" then
    SetVfDefaultGUID sys handle vf m w
  else
    (none, w)

/-- The function `setPortAdminState` (lines 263-280). -/
def setPortAdminState (sys : Sys W) (handle : PfNetdevHandle) (vf : VfPtr) (m : Mem) (w : W) :
    Option Err × W :=
  if handle.pfLinkHandle.EncapType = "infiniband" then
    match sys.ibGetPortAdminState handle.PfNetdevName (m.objs vf).Index w with
    | ((_state, some _), w1) => (none, w1)
    | ((_state, none), w1) =>
      match sys.ibSetPortAdminState handle.PfNetdevName (m.objs vf).Index
          sys.ibSriovPortAdminStateFollow w1 with
      | (some err2, w2) => (some err2, w2)
      | (none, w2) => (none, w2)
  else
    (none, w)

/-! ## Configuration of all VFs (lines 282-311) -/

/-- The loop of `ConfigVfs` (lines 285-309) on the rest of the list. The first
component of the result is the value of the variable `err` when the loop is
left: the error of the step that ran `break`, or `nil`. -/
def ConfigVfs.loop (sys : Sys W) (handle : PfNetdevHandle) (privileged : Bool) :
    List VfPtr → Mem → W → Option Err × Mem × W
  | [], m, w => (none, m, w)
  | vf :: rest, m, w =>
    match setPortAdminState sys handle vf m w with
    | (some err, w1) => (some err, m, w1)
    | (none, w1) =>
      match setDefaultHwAddr sys handle vf m w1 with
      | (some err, w2) => (some err, m, w2)
      | (none, w2) =>
        match SetVfPrivileged sys handle vf privileged m w2 with
        | (_, w3) =>
          if (m.objs vf).Bound = true then
            match UnbindVf sys handle vf m w3 with
            | (some err, m4, w4) => (some err, m4, w4)
            | (none, m4, w4) =>
              match BindVf sys handle vf m4 w4 with
              | (some err, m5, w5) => (some err, m5, w5)
              | (none, m5, w5) => ConfigVfs.loop sys handle privileged rest m5 w5
          else
            ConfigVfs.loop sys handle privileged rest m w3

/-- The function `ConfigVfs` (lines 282-311): the loop, then `return nil` (line 310). -/
def ConfigVfs (sys : Sys W) (handle : PfNetdevHandle) (privileged : Bool) (m : Mem) (w : W) :
    Option Err × Mem × W :=
  match ConfigVfs.loop sys handle privileged handle.List m w with
  | (_err, m1, w1) => (none, m1, w1)

/-! ## Allocation by hardware address (lines 325-339) -/

/-- The loop of `AllocateVfByMacAddress` on the rest of the list. The error of
`GetVfDefaultMacAddr` is assigned to the blank identifier. -/
def AllocateVfByMacAddress.loop (sys : Sys W) (handle : PfNetdevHandle)
    (vfMacAddress : String) : List VfPtr → Mem → W → Except Err VfPtr × Mem × W
  | [], m, w => (.error ("All Vfs for " ++ handle.PfNetdevName ++ " are allocated."), m, w)
  | vf :: rest, m, w =>
    if (m.objs vf).Allocated = true then
      AllocateVfByMacAddress.loop sys handle vfMacAddress rest m w
    else
      match GetVfDefaultMacAddr sys (m.objs vf).NetdevName w with
      | ((macAddr, _), w1) =>
        if macAddr ≠ vfMacAddress then
          AllocateVfByMacAddress.loop sys handle vfMacAddress rest m w1
        else
          (.ok vf, m.write vf { m.objs vf with Allocated := true }, w1)

/-- The function `AllocateVfByMacAddress` (lines 325-339). -/
def AllocateVfByMacAddress (sys : Sys W) (handle : PfNetdevHandle) (vfMacAddress : String)
    (m : Mem) (w : W) : Except Err VfPtr × Mem × W :=
  AllocateVfByMacAddress.loop sys handle vfMacAddress handle.List m w

end Ops

/-! ## A concrete environment

A world that records the calls made on it, with the outcome of each kind of
call fixed by a `Demo` record. It is used to run the functions on concrete
inputs. -/

/-- A call on the environment, with the arguments worth observing. -/
inductive Event
  | dirExists (dir : String)
  | readMax (pf : String)
  | readCur (pf : String)
  | setMaxVfCount (pf : String) (n : Int)
  | fileWrite (path payload : String)
  | linkByName (name : String)
  | setHwAddr (index : Int) (addr : List Byte)
  | nodeGuid (index : Int) (guid : List Byte)
  | portGuid (index : Int) (guid : List Byte)
  | other (what : String)
deriving DecidableEq, Repr

/-- The fixed outcomes of a concrete environment. -/
structure Demo where
  devExist : Bool
  maxVfs : Int × Option Err
  curVfs : Int × Option Err
  writeErr : Option Err
  links : List (String × Link)
  vfDirs : List String
  netdevs : List (String × String)
  uuid : UUID

/-- The library function `strings.TrimPrefix`. -/
def trimPrefixImpl (s pre : String) : String :=
  if pre.data.isPrefixOf s.data then String.mk (s.data.drop pre.data.length) else s

/-- The value of a string of decimal digits, `none` when the string is empty
or holds another character. -/
def digitsValue : List Char → Option Nat
  | [] => none
  | cs => cs.foldl
      (fun acc c => acc.bind fun n => if c.isDigit then some (10 * n + (c.toNat - 48)) else none)
      (some 0)

/-- The library function `strconv.Atoi` on a 64-bit platform: an optional sign and decimal digits;
`0` with an error on a syntax error, the nearest bound with an error out of
range. -/
def atoiImpl (s : String) : Int × Option Err :=
  let (neg, ds) := match s.data with
    | '-' :: r => (true, r)
    | '+' :: r => (false, r)
    | r => (false, r)
  match digitsValue ds with
  | none => (0, some "invalid syntax")
  | some n =>
    if neg then
      if n ≤ 2 ^ 63 then (-(n : Int), none) else (-(2 ^ 63 : Int), some "value out of range")
    else
      if n < 2 ^ 63 then ((n : Int), none) else ((2 ^ 63 - 1 : Int), some "value out of range")

/-- The library function `net.HardwareAddr.String`: two lower-case hexadecimal digits per byte,
separated by colons; the empty string for no bytes. -/
def hwAddrStringImpl (a : List Byte) : String :=
  let hexDigit (n : Nat) : Char := "0123456789abcdef".data.getD n '0'
  String.intercalate ":" (a.map fun b => String.mk [hexDigit (b.val / 16), hexDigit (b.val % 16)])

/-- The environment of a `Demo` record: every call is appended to the world,
and its outcome is read from the record. -/
def demoSys (d : Demo) : Sys (List Event) where
  netSysDir := "/sys/class/net"
  netdevDriverDir := "device/driver"
  netdevUnbindFile := "unbind"
  netdevBindFile := "bind"
  ibSriovPortAdminStateFollow := "Follow"
  filepathJoin := String.intercalate "/"
  TrimPrefix := trimPrefixImpl
  Atoi := atoiImpl
  hwAddrString := hwAddrStringImpl
  netDevDeviceDir := fun n => "/sys/class/net/" ++ n ++ "/device"
  dirExists := fun dir w => (d.devExist, w ++ [.dirExists dir])
  getMaxVfCount := fun pf w => (d.maxVfs, w ++ [.readMax pf])
  netdevGetEnabledVfCount := fun pf w => (d.curVfs, w ++ [.readCur pf])
  setMaxVfCount := fun pf n w => (d.writeErr, w ++ [.setMaxVfCount pf n])
  getVfPciDevList := fun _ w => ((d.vfDirs, none), w ++ [.other "getVfPciDevList"])
  vfNetdevNameFromParent := fun _ vfDir w =>
    ((d.netdevs.lookup vfDir).getD "", w ++ [.other "vfNetdevNameFromParent"])
  vfPCIDevNameFromVfDir := fun _ vfDir w =>
    ("0000:03:00." ++ trimPrefixImpl vfDir "virtfn", w ++ [.other "vfPCIDevNameFromVfDir"])
  fileWrite := fun path payload w => (d.writeErr, w ++ [.fileWrite path payload])
  ibGetPortAdminState := fun _ _ w => (("", some "no such file"), w ++ [.other "ibGetPortAdminState"])
  ibSetPortAdminState := fun _ _ _ w => (none, w ++ [.other "ibSetPortAdminState"])
  ibSetNodeGuid := fun _ i g w => (none, w ++ [.nodeGuid i g])
  ibSetPortGuid := fun _ i g w => (none, w ++ [.portGuid i g])
  LinkByName := fun name w =>
    (match d.links.lookup name with
      | some l => .ok l
      | none => .error "Link not found", w ++ [.linkByName name])
  LinkSetUp := fun _ w => (none, w ++ [.other "LinkSetUp"])
  LinkSetVfHardwareAddr := fun _ i a w => (none, w ++ [.setHwAddr i a])
  LinkSetVfVlan := fun _ _ _ w => (none, w ++ [.other "LinkSetVfVlan"])
  LinkSetVfNodeGUID := fun _ i g w => (none, w ++ [.nodeGuid i g])
  LinkSetVfPortGUID := fun _ i g w => (none, w ++ [.portGuid i g])
  LinkSetVfTrust := fun _ _ _ w => (none, w ++ [.other "LinkSetVfTrust"])
  LinkSetVfSpoofchk := fun _ _ _ w => (none, w ++ [.other "LinkSetVfSpoofchk"])
  NewV4 := fun w => (.ok d.uuid, w ++ [.other "NewV4"])

/-- A 16-byte value for the examples. -/
def uuid0 : UUID :=
  ⟨[0x3a, 0x51, 0x07, 0xc2, 0x9e, 0x14, 0x4b, 0x60, 0x8d, 0x22, 0xf1, 0x05, 0x77, 0xab, 0x19, 0xe4],
    rfl⟩

/-- A device `pf0` with four VFs enabled out of four, an Ethernet link, whose
VF `virtfn0` is bound to the interface `eth1`; every write succeeds. -/
def demo0 : Demo where
  devExist := true
  maxVfs := (4, none)
  curVfs := (4, none)
  writeErr := none
  links := [("pf0", ⟨"ether", [0x24, 0x8a, 0x07, 0, 0, 0x10]⟩),
            ("eth1", ⟨"ether", [0xaa, 0xbb, 0xcc, 0xdd, 0xee, 0xff]⟩)]
  vfDirs := ["virtfn0", "virtfn1"]
  netdevs := [("virtfn0", "eth1")]
  uuid := uuid0

/-- A store for the examples: the records of `vs` at addresses `0, 1, ...`. -/
def memOf (vs : List VfObj) : Mem :=
  { objs := fun p => vs.getD p ⟨0, "", "", false, false⟩, next := vs.length }

/-! ## Sequences of calls on the allocation interface -/

/-- A call of the allocation interface: `AllocateVf(handle)` or
`FreeVf(handle, vf)`. -/
inductive Call
  | allocate
  | free (vf : VfPtr)
deriving DecidableEq, Repr

/-- One call: the VF a successful `AllocateVf` returned (`none` for a failed
`AllocateVf` and for `FreeVf`, which returns nothing), and the store after it. -/
def step (handle : PfNetdevHandle) (m : Mem) : Call → Option VfPtr × Mem
  | .allocate =>
    match AllocateVf handle m with
    | (.ok vf, m1) => (some vf, m1)
    | (.error _, m1) => (none, m1)
  | .free vf => (none, FreeVf handle vf m)

/-- A finite sequence of calls, one after the other: what each call returned,
and the final store. -/
def exec (handle : PfNetdevHandle) : Mem → List Call → List (Option VfPtr) × Mem
  | m, [] => ([], m)
  | m, c :: cs =>
    ((step handle m c).1 :: (exec handle (step handle m c).2 cs).1,
      (exec handle (step handle m c).2 cs).2)

/-- The handle and store of the examples: VF 0 (`eth1`) allocated, VF 1 free. -/
def handle0 : PfNetdevHandle := ⟨"pf0", ⟨"ether", []⟩, [0, 1]⟩

/-- The store of the examples. -/
def mem0 : Mem :=
  memOf [⟨0, "virtfn0", "eth1", true, true⟩, ⟨1, "virtfn1", "", false, false⟩]

/-- A store in which both VFs of `handle0` are allocated. -/
def memFull : Mem :=
  memOf [⟨0, "virtfn0", "eth1", true, true⟩, ⟨1, "virtfn1", "eth2", true, true⟩]

/-- The environment `demo0` in which every write to a control file fails. -/
def demoWriteFails : Demo := { demo0 with writeErr := some "write: permission denied" }

/-- The environment `demo0` with no VF enabled yet and a failing read of the
number of enabled VFs. -/
def demoCurFails : Demo := { demo0 with curVfs := (0, some "read: input/output error") }

/-- An InfiniBand handle for the examples, with one VF at address 0. -/
def handleIb : PfNetdevHandle := ⟨"ib0", ⟨"infiniband", []⟩, [0]⟩

/-- A store whose VF at address 0 has index 256. -/
def memIndex256 : Mem := memOf [⟨256, "virtfn256", "", false, false⟩]

/-- A store whose VF at address 0 has index 3. -/
def memIndex3 : Mem := memOf [⟨3, "virtfn3", "", false, false⟩]

/-- The invariant of a VF record: an unbound VF has no interface name. -/
def BoundInv (v : VfObj) : Prop :=
  v.Bound = false → v.NetdevName = ""

/-- The invariant is decidable. -/
instance (v : VfObj) : Decidable (BoundInv v) := by
  unfold BoundInv; infer_instance

/-- In the words of the spec, for `allocateByHardwareAddress`: every VF of the
list is passed over by the scan that starts in world `w` and ends in world
`w1`. A VF is passed over when it is already allocated (it is not queried), or
when its hardware-address query fails, or when the query returns an address
other than `addr`. -/
def Skipped {W : Type} (sys : Sys W) (addr : String) (m : Mem) : List VfPtr → W → W → Prop
  | [], w, w1 => w1 = w
  | vf :: rest, w, w1 =>
    if (m.objs vf).Allocated = true then
      Skipped sys addr m rest w w1
    else
      ((GetVfDefaultMacAddr sys (m.objs vf).NetdevName w).1.2 ≠ none ∨
          (GetVfDefaultMacAddr sys (m.objs vf).NetdevName w).1.1 ≠ addr) ∧
        Skipped sys addr m rest (GetVfDefaultMacAddr sys (m.objs vf).NetdevName w).2 w1

/-- A store in which both VFs of `handle0` are free. -/
def memFree : Mem :=
  memOf [⟨0, "virtfn0", "eth1", true, false⟩, ⟨1, "virtfn1", "", false, false⟩]

/-! ## Theorems -/

theorem Mem.write_objs_same (m : Mem) (p : VfPtr) (v : VfObj) : (m.write p v).objs p = v := by
  simp [Mem.write]

theorem Mem.write_objs_other (m : Mem) (p q : VfPtr) (v : VfObj) (h : q ≠ p) :
    (m.write p v).objs q = m.objs q := by
  simp [Mem.write, h]

theorem Mem.write_next (m : Mem) (p : VfPtr) (v : VfObj) : (m.write p v).next = m.next := rfl

/-- Writing back the record that is already stored changes nothing. -/
theorem Mem.write_self (m : Mem) (p : VfPtr) (v : VfObj) (h : m.objs p = v) :
    m.write p v = m := by
  cases m with
  | mk objs next =>
    simp only [Mem.write, Mem.mk.injEq, and_true]
    funext q
    by_cases hq : q = p
    · subst hq; simpa using h.symm
    · simp [hq]

/-- The loop of `AllocateVf` over VFs that are all allocated ends in the error
and leaves the store alone. -/
theorem AllocateVf.loop_exhausted (handle : PfNetdevHandle) (l : List VfPtr) (m : Mem)
    (h : ∀ q ∈ l, (m.objs q).Allocated = true) :
    AllocateVf.loop handle l m
      = (.error ("All Vfs for " ++ handle.PfNetdevName ++ " are allocated."), m) := by
  induction l with
  | nil => rfl
  | cons q rest ih =>
    have hq : (m.objs q).Allocated = true := h q (List.mem_cons_self _ _)
    simp only [AllocateVf.loop, hq, if_true]
    exact ih fun r hr => h r (List.mem_cons_of_mem _ hr)

/-- The loop of `AllocateVf` skips an allocated prefix and takes the first VF
that is free. -/
theorem AllocateVf.loop_first (handle : PfNetdevHandle) (pre post : List VfPtr) (vf : VfPtr)
    (m : Mem) (hpre : ∀ q ∈ pre, (m.objs q).Allocated = true)
    (hvf : (m.objs vf).Allocated = false) :
    AllocateVf.loop handle (pre ++ vf :: post) m
      = (.ok vf, m.write vf { m.objs vf with Allocated := true }) := by
  induction pre with
  | nil => simp [AllocateVf.loop, hvf]
  | cons q rest ih =>
    have hq : (m.objs q).Allocated = true := hpre q (List.mem_cons_self _ _)
    simp only [List.cons_append, AllocateVf.loop, hq, if_true]
    exact ih fun r hr => hpre r (List.mem_cons_of_mem _ hr)

/-- A list with a free VF splits at its first free VF. -/
theorem exists_first_free (m : Mem) (l : List VfPtr)
    (h : ∃ vf ∈ l, (m.objs vf).Allocated = false) :
    ∃ pre vf post, l = pre ++ vf :: post ∧ (∀ q ∈ pre, (m.objs q).Allocated = true) ∧
      (m.objs vf).Allocated = false := by
  induction l with
  | nil => obtain ⟨vf, hmem, _⟩ := h; cases hmem
  | cons q rest ih =>
    by_cases hq : (m.objs q).Allocated = true
    · obtain ⟨vf, hmem, hvf⟩ := h
      have hrest : ∃ vf ∈ rest, (m.objs vf).Allocated = false := by
        rcases List.mem_cons.mp hmem with rfl | hin
        · rw [hq] at hvf; cases hvf
        · exact ⟨vf, hin, hvf⟩
      obtain ⟨pre, v, post, hl, hpre, hv⟩ := ih hrest
      refine ⟨q :: pre, v, post, by simp [hl], ?_, hv⟩
      intro r hr
      rcases List.mem_cons.mp hr with rfl | hin
      · exact hq
      · exact hpre r hin
    · exact ⟨[], q, rest, rfl, by simp, by simpa using hq⟩

/-- What a successful run of the loop of `AllocateVf` returned was in the list
and free, and the store differs by that one flag. -/
theorem AllocateVf.loop_ok (handle : PfNetdevHandle) (l : List VfPtr) (m m1 : Mem) (vf : VfPtr)
    (h : AllocateVf.loop handle l m = (.ok vf, m1)) :
    vf ∈ l ∧ (m.objs vf).Allocated = false ∧
      m1 = m.write vf { m.objs vf with Allocated := true } := by
  induction l with
  | nil => simp [AllocateVf.loop] at h
  | cons q rest ih =>
    by_cases hq : (m.objs q).Allocated = true
    · simp only [AllocateVf.loop, hq, if_true] at h
      obtain ⟨h1, h2, h3⟩ := ih h
      exact ⟨List.mem_cons_of_mem _ h1, h2, h3⟩
    · simp only [AllocateVf.loop, hq, if_false, Prod.mk.injEq, Except.ok.injEq] at h
      obtain ⟨rfl, rfl⟩ := h
      exact ⟨List.mem_cons_self _ _, by simpa using hq, rfl⟩

/-- A failed run of the loop of `AllocateVf` leaves the store alone. -/
theorem AllocateVf.loop_error (handle : PfNetdevHandle) (l : List VfPtr) (m m1 : Mem) (e : Err)
    (h : AllocateVf.loop handle l m = (.error e, m1)) : m1 = m := by
  induction l with
  | nil => simp only [AllocateVf.loop, Prod.mk.injEq] at h; exact h.2.symm
  | cons q rest ih =>
    by_cases hq : (m.objs q).Allocated = true
    · simp only [AllocateVf.loop, hq, if_true] at h
      exact ih h
    · simp [AllocateVf.loop, hq] at h

/-- Claim C1. `AllocateVf` on a handle with a free VF succeeds with the first VF
of `handle.List` whose `Allocated` flag is false (every VF before it in the
list is allocated), sets that flag, and leaves every other record as it was;
on a handle whose VFs are all allocated (the empty list included) it returns
an error and the store is unchanged. The handle itself, and so the order of
its list, is only read. -/
theorem AllocateVf_spec (handle : PfNetdevHandle) (m : Mem) :
    ((∃ vf ∈ handle.List, (m.objs vf).Allocated = false) →
      ∃ pre vf post, handle.List = pre ++ vf :: post ∧
        (∀ q ∈ pre, (m.objs q).Allocated = true) ∧ (m.objs vf).Allocated = false ∧
        (AllocateVf handle m).1 = .ok vf ∧
        (AllocateVf handle m).2.objs vf = { m.objs vf with Allocated := true } ∧
        (∀ q, q ≠ vf → (AllocateVf handle m).2.objs q = m.objs q) ∧
        (AllocateVf handle m).2.next = m.next) ∧
    ((∀ vf ∈ handle.List, (m.objs vf).Allocated = true) →
      (∃ e, (AllocateVf handle m).1 = .error e) ∧ (AllocateVf handle m).2 = m) := by
  constructor
  · intro h
    obtain ⟨pre, vf, post, hl, hpre, hvf⟩ := exists_first_free m handle.List h
    refine ⟨pre, vf, post, hl, hpre, hvf, ?_⟩
    have hrun := AllocateVf.loop_first handle pre post vf m hpre hvf
    rw [← hl] at hrun
    simp only [AllocateVf, hrun, Mem.write_objs_same, Mem.write_next, true_and, and_true]
    exact fun q hq => Mem.write_objs_other m vf q _ hq
  · intro h
    have hrun := AllocateVf.loop_exhausted handle handle.List m h
    simp only [AllocateVf, hrun, and_true]
    exact ⟨_, rfl⟩

/-- On `handle0` with VF 0 allocated and VF 1 free, `AllocateVf` returns VF 1;
with both allocated it fails. -/
theorem AllocateVf_spec_witness :
    (∃ pre vf post, handle0.List = pre ++ vf :: post ∧
        (∀ q ∈ pre, (mem0.objs q).Allocated = true) ∧ (mem0.objs vf).Allocated = false ∧
        (AllocateVf handle0 mem0).1 = .ok vf ∧
        (AllocateVf handle0 mem0).2.objs vf = { mem0.objs vf with Allocated := true } ∧
        (∀ q, q ≠ vf → (AllocateVf handle0 mem0).2.objs q = mem0.objs q) ∧
        (AllocateVf handle0 mem0).2.next = mem0.next) ∧
      ((∃ e, (AllocateVf handle0 memFull).1 = .error e) ∧ (AllocateVf handle0 memFull).2 = memFull) :=
  ⟨(AllocateVf_spec handle0 mem0).1 ⟨1, by decide, by decide⟩,
    (AllocateVf_spec handle0 memFull).2 (by decide)⟩

/-- Claim C2 (the code at the failing input). VF 0 of `handle0` is allocated and
named `eth1`; `FreeVfByNetdevName(handle0, "eth1")` returns `nil` and the
`Allocated` flag of VF 0 is still true afterwards: line 349 assigns `true`. -/
theorem FreeVfByNetdevName_leaves_flag_set :
    (mem0.objs 0).Allocated = true ∧ (mem0.objs 0).NetdevName = "eth1" ∧
      (FreeVfByNetdevName handle0 "eth1" mem0).1 = none ∧
      ((FreeVfByNetdevName handle0 "eth1" mem0).2.objs 0).Allocated = true := by
  decide

/-- A successful `AllocateVf` step returned a VF that was free, and set its flag. -/
theorem step_allocate_some (handle : PfNetdevHandle) (m : Mem) (vf : VfPtr)
    (h : (step handle m .allocate).1 = some vf) :
    (AllocateVf handle m).1 = .ok vf ∧ (m.objs vf).Allocated = false ∧
      (step handle m .allocate).2 = m.write vf { m.objs vf with Allocated := true } := by
  cases hrun : AllocateVf handle m with
  | mk r m1 =>
    cases r with
    | error e => simp [step, hrun] at h
    | ok v =>
      simp only [step, hrun, Option.some.injEq] at h ⊢
      subst h
      obtain ⟨_, h2, h3⟩ := AllocateVf.loop_ok handle handle.List m m1 v hrun
      exact ⟨rfl, h2, h3⟩

/-- Only an `AllocateVf` call returns a VF. -/
theorem step_some_is_allocate (handle : PfNetdevHandle) (m : Mem) (c : Call) (vf : VfPtr)
    (h : (step handle m c).1 = some vf) : c = .allocate := by
  cases c with
  | allocate => rfl
  | free q => simp [step] at h

/-- A call other than `FreeVf` on `vf` leaves an allocated `vf` allocated. -/
theorem step_keeps_allocated (handle : PfNetdevHandle) (m : Mem) (c : Call) (vf : VfPtr)
    (hvf : (m.objs vf).Allocated = true) (hc : c ≠ .free vf) :
    ((step handle m c).2.objs vf).Allocated = true := by
  cases c with
  | free q =>
    have hq : vf ≠ q := fun e => hc (by rw [e])
    simp only [step, FreeVf]
    rw [Mem.write_objs_other m q vf _ hq]
    exact hvf
  | allocate =>
    cases hrun : AllocateVf handle m with
    | mk r m1 =>
      cases r with
      | error e =>
        have := AllocateVf.loop_error handle handle.List m m1 e hrun
        simp only [step, hrun]
        rw [this]; exact hvf
      | ok v =>
        obtain ⟨_, _, h3⟩ := AllocateVf.loop_ok handle handle.List m m1 v hrun
        simp only [step, hrun]
        rw [h3]
        by_cases hq : vf = v
        · subst hq; rw [Mem.write_objs_same]
        · rw [Mem.write_objs_other m v vf _ hq]; exact hvf

/-- While `vf` is allocated, `AllocateVf` returns it again only after a
`FreeVf` on it. -/
theorem exec_returns_allocated_after_free (handle : PfNetdevHandle) (cs : List Call) :
    ∀ (m : Mem) (j : Nat) (vf : VfPtr), (m.objs vf).Allocated = true →
      (exec handle m cs).1[j]? = some (some vf) → ∃ k, k < j ∧ cs[k]? = some (Call.free vf) := by
  induction cs with
  | nil => intro m j vf _ h; simp [exec] at h
  | cons c rest ih =>
    intro m j vf hvf h
    cases j with
    | zero =>
      simp only [exec, List.getElem?_cons_zero, Option.some.injEq] at h
      have hc := step_some_is_allocate handle m c vf h
      subst hc
      have := (step_allocate_some handle m vf h).2.1
      rw [hvf] at this; cases this
    | succ j =>
      simp only [exec, List.getElem?_cons_succ] at h
      by_cases hc : c = .free vf
      · exact ⟨0, Nat.succ_pos _, by simp [hc]⟩
      · obtain ⟨k, hk, hfree⟩ :=
          ih (step handle m c).2 j vf (step_keeps_allocated handle m c vf hvf hc) h
        exact ⟨k + 1, Nat.succ_lt_succ hk, by simpa using hfree⟩

/-- Claim C3. In every finite sequence of `AllocateVf` and `FreeVf` calls on a
handle, from every store: if the calls number `i < j` both returned the VF
`vf`, some call strictly between them is `FreeVf` on `vf`; and every VF a call
returned was returned by `AllocateVf` on the store just before that call, in
which its `Allocated` flag was false. (Distinctness of the records of the list
is not needed.) -/
theorem AllocateVf_never_twice_without_free (handle : PfNetdevHandle) (calls : List Call)
    (m : Mem) :
    (∀ (i j : Nat) (vf : VfPtr), i < j → (exec handle m calls).1[i]? = some (some vf) →
        (exec handle m calls).1[j]? = some (some vf) →
        ∃ k, i < k ∧ k < j ∧ calls[k]? = some (Call.free vf)) ∧
    (∀ (j : Nat) (vf : VfPtr), (exec handle m calls).1[j]? = some (some vf) →
        calls[j]? = some .allocate ∧
        (AllocateVf handle (exec handle m (calls.take j)).2).1 = .ok vf ∧
        ((exec handle m (calls.take j)).2.objs vf).Allocated = false) := by
  induction calls generalizing m with
  | nil =>
    exact ⟨fun i j vf _ h => by simp [exec] at h, fun j vf h => by simp [exec] at h⟩
  | cons c rest ih =>
    constructor
    · intro i j vf hij hi hj
      cases j with
      | zero => omega
      | succ j =>
        simp only [exec, List.getElem?_cons_succ] at hj
        cases i with
        | zero =>
          simp only [exec, List.getElem?_cons_zero, Option.some.injEq] at hi
          have hc := step_some_is_allocate handle m c vf hi
          subst hc
          have hset : ((step handle m .allocate).2.objs vf).Allocated = true := by
            rw [(step_allocate_some handle m vf hi).2.2, Mem.write_objs_same]
          obtain ⟨k, hk, hfree⟩ :=
            exec_returns_allocated_after_free handle rest _ j vf hset hj
          exact ⟨k + 1, Nat.succ_pos _, Nat.succ_lt_succ hk, by simpa using hfree⟩
        | succ i =>
          simp only [exec, List.getElem?_cons_succ] at hi
          obtain ⟨k, hik, hkj, hfree⟩ :=
            (ih (step handle m c).2).1 i j vf (Nat.lt_of_succ_lt_succ hij) hi hj
          exact ⟨k + 1, Nat.succ_lt_succ hik, Nat.succ_lt_succ hkj, by simpa using hfree⟩
    · intro j vf hj
      cases j with
      | zero =>
        simp only [exec, List.getElem?_cons_zero, Option.some.injEq] at hj
        have hc := step_some_is_allocate handle m c vf hj
        subst hc
        obtain ⟨h1, h2, _⟩ := step_allocate_some handle m vf hj
        simpa [exec] using And.intro h1 h2
      | succ j =>
        simp only [exec, List.getElem?_cons_succ] at hj
        simpa [exec] using (ih (step handle m c).2).2 j vf hj

/-- On `handle0`: allocate (VF 1), free VF 1, allocate (VF 1 again), allocate
(fails). Calls 0 and 2 both return VF 1 and call 1 frees it. -/
theorem AllocateVf_never_twice_without_free_witness :
    (exec handle0 mem0 [.allocate, .free 1, .allocate, .allocate]).1
        = [some 1, none, some 1, none] ∧
      (∃ k, 0 < k ∧ k < 2 ∧
        [Call.allocate, .free 1, .allocate, .allocate][k]? = some (.free 1)) ∧
      ((exec handle0 mem0 ([Call.allocate, .free 1, .allocate, .allocate].take 2)).2.objs
        1).Allocated = false :=
  ⟨by decide,
    (AllocateVf_never_twice_without_free handle0 [.allocate, .free 1, .allocate, .allocate]
      mem0).1 0 2 1 (by decide) (by decide) (by decide),
    ((AllocateVf_never_twice_without_free handle0 [.allocate, .free 1, .allocate, .allocate]
      mem0).2 2 1 (by decide)).2.2⟩

/-- After `FreeVf` on a VF of a list whose VFs were all allocated, the loop of
`AllocateVf` returns that VF and restores the store. -/
theorem AllocateVf.loop_after_free (handle : PfNetdevHandle) (l : List VfPtr) (m : Mem)
    (v : VfPtr) (hv : v ∈ l) (hall : ∀ q ∈ l, (m.objs q).Allocated = true)
    (hv0 : (m.objs v).Allocated = true) :
    AllocateVf.loop handle l (FreeVf handle v m) = (.ok v, m) := by
  induction l with
  | nil => cases hv
  | cons q rest ih =>
    by_cases hq : q = v
    · subst hq
      have hfree : ((FreeVf handle q m).objs q).Allocated = false := by
        simp [FreeVf, Mem.write_objs_same]
      simp only [AllocateVf.loop, hfree, Bool.false_eq_true, if_false, Prod.mk.injEq, true_and]
      cases m with
      | mk objs next =>
        simp only [FreeVf, Mem.write, Mem.mk.injEq, and_true]
        funext r
        by_cases hr : r = q
        · subst hr
          simp only [if_true]
          simp only at hv0
          rw [← hv0]
        · simp [hr]
    · have hkeep : ((FreeVf handle v m).objs q).Allocated = true := by
        simp only [FreeVf]
        rw [Mem.write_objs_other m v q _ hq]
        exact hall q (List.mem_cons_self _ _)
      simp only [AllocateVf.loop, hkeep, if_true]
      refine ih ?_ fun r hr => hall r (List.mem_cons_of_mem _ hr)
      rcases List.mem_cons.mp hv with h | h
      · exact absurd h.symm hq
      · exact h

/-- Claim C4. On a handle with at least one VF, all allocated, `AllocateVf`
fails (and changes nothing); and for every VF `v` of the handle, `FreeVf` on
`v` followed by `AllocateVf` succeeds, returns exactly `v`, and ends in the
store it started from, in which every VF of the handle is allocated. -/
theorem AllocateVf_exhausted_then_free (handle : PfNetdevHandle) (m : Mem)
    (_hne : handle.List ≠ []) (hall : ∀ q ∈ handle.List, (m.objs q).Allocated = true) :
    (∃ e, AllocateVf handle m = (.error e, m)) ∧
    ∀ v ∈ handle.List,
      AllocateVf handle (FreeVf handle v m) = (.ok v, m) ∧
      ∀ q ∈ handle.List,
        ((AllocateVf handle (FreeVf handle v m)).2.objs q).Allocated = true := by
  refine ⟨⟨_, AllocateVf.loop_exhausted handle handle.List m hall⟩, ?_⟩
  intro v hv
  have hrun : AllocateVf handle (FreeVf handle v m) = (.ok v, m) :=
    AllocateVf.loop_after_free handle handle.List m v hv hall (hall v hv)
  refine ⟨hrun, ?_⟩
  intro q hq
  rw [hrun]
  exact hall q hq

/-- With both VFs of `handle0` allocated, `AllocateVf` fails; after `FreeVf`
on VF 0 it returns VF 0. -/
theorem AllocateVf_exhausted_then_free_witness :
    (∃ e, AllocateVf handle0 memFull = (.error e, memFull)) ∧
      (AllocateVf handle0 (FreeVf handle0 0 memFull)).1 = .ok 0 :=
  ⟨(AllocateVf_exhausted_then_free handle0 memFull (by decide) (by decide)).1,
    congrArg Prod.fst
      ((AllocateVf_exhausted_then_free handle0 memFull (by decide) (by decide)).2 0
        (by decide)).1⟩

/-- Claim C5 (the code at the failing input). With every control-file write
failing: `UnbindVf` on the bound VF 0 (`eth1`) returns the error and the record
then says `Bound == false`, `NetdevName == ""`; `BindVf` on the unbound VF 1
returns the error and the record then says `Bound == true`. With the writes
succeeding, `UnbindVf` returns `nil` and the record of VF 0 is untouched: the
records are written in the branch `err != nil` (lines 135 and 150). -/
theorem UnbindVf_BindVf_write_on_failure :
    ((mem0.objs 0).Bound = true ∧ (mem0.objs 0).NetdevName = "eth1" ∧
      (UnbindVf (demoSys demoWriteFails) handle0 0 mem0 []).1 = some "write: permission denied" ∧
      ((UnbindVf (demoSys demoWriteFails) handle0 0 mem0 []).2.1.objs 0).Bound = false ∧
      ((UnbindVf (demoSys demoWriteFails) handle0 0 mem0 []).2.1.objs 0).NetdevName = "") ∧
    ((mem0.objs 1).Bound = false ∧
      (BindVf (demoSys demoWriteFails) handle0 1 mem0 []).1 = some "write: permission denied" ∧
      ((BindVf (demoSys demoWriteFails) handle0 1 mem0 []).2.1.objs 1).Bound = true) ∧
    ((UnbindVf (demoSys demo0) handle0 0 mem0 []).1 = none ∧
      ((UnbindVf (demoSys demo0) handle0 0 mem0 []).2.1.objs 0).Bound = true) := by
  decide

/-- Claim C6 (the code at the failing input). With every control-file write
failing, the unbind of the bound VF 0 fails inside `ConfigVfs`: the loop is left
with `err` holding that failure, and `ConfigVfs` returns `nil` (line 310). -/
theorem ConfigVfs_returns_nil_on_failure :
    (ConfigVfs.loop (demoSys demoWriteFails) handle0 false handle0.List mem0 []).1
        = some "write: permission denied" ∧
      (ConfigVfs (demoSys demoWriteFails) handle0 false mem0 []).1 = none := by
  decide

/-- Claim C8 (the code at the failing input). The device directory exists, the
maximum is read as 4, and the read of the current count fails: `EnableSriov`
returns `nil`, and the calls it made are the three reads, no write. -/
theorem EnableSriov_nil_when_current_read_fails :
    EnableSriov (demoSys demoCurFails) "pf0" []
      = (none, [.dirExists "/sys/class/net/pf0/device", .readMax "pf0", .readCur "pf0"]) := by
  decide

/-- The byte `byte(i)` as a number is `i mod 256`. -/
theorem byteOfInt_val (i : Int) : ((byteOfInt i).val : Int) = i % 256 := by
  simp only [byteOfInt]
  omega

/-- The derived GUID has eight bytes. -/
theorem defaultGuid_length (uuid : UUID) (index : Int) : (defaultGuid uuid index).length = 8 := by
  simp [defaultGuid, uuid.size_eq]

/-- The first seven bytes of the derived GUID are those of the random value. -/
theorem defaultGuid_take (uuid : UUID) (index : Int) :
    (defaultGuid uuid index).take 7 = uuid.bytes.take 7 := by
  simp only [defaultGuid]
  rw [List.set_take, List.take_take]
  exact List.set_eq_of_length_le (by simp [uuid.size_eq])

/-- The last of the eight bytes of the derived GUID is `byte(index)`. -/
theorem defaultGuid_last (uuid : UUID) (index : Int) :
    (defaultGuid uuid index)[7]? = some (byteOfInt index) := by
  have h : 7 < (uuid.bytes.take 8).length := by simp [uuid.size_eq]
  simp only [defaultGuid]
  exact List.getElem?_set_self h

/-- Claim C10 (amended). When the random source returns `uuid`, `SetVfDefaultGUID`
passes one and the same GUID to `setVfNodeGuid` and to `setVfPortGuid`; that
GUID is 8 bytes long, its first 7 bytes are the first 7 bytes of `uuid`, and
its final byte is the VF index modulo 256: the index itself when it is below
256. -/
theorem SetVfDefaultGUID_guid {W : Type} (sys : Sys W) (handle : PfNetdevHandle) (vf : VfPtr)
    (m : Mem) (w w1 : W) (uuid : UUID) (hnew : sys.NewV4 w = (.ok uuid, w1)) :
    SetVfDefaultGUID sys handle vf m w
        = (match setVfNodeGuid sys handle vf (defaultGuid uuid (m.objs vf).Index) m w1 with
          | (some err, w2) => (some err, w2)
          | (none, w2) => setVfPortGuid sys handle vf (defaultGuid uuid (m.objs vf).Index) m w2) ∧
      (defaultGuid uuid (m.objs vf).Index).length = 8 ∧
      (defaultGuid uuid (m.objs vf).Index).take 7 = uuid.bytes.take 7 ∧
      ((defaultGuid uuid (m.objs vf).Index)[7]?.map fun b => (b.val : Int))
        = some ((m.objs vf).Index % 256) ∧
      (0 ≤ (m.objs vf).Index → (m.objs vf).Index < 256 →
        ((defaultGuid uuid (m.objs vf).Index)[7]?.map fun b => (b.val : Int))
          = some (m.objs vf).Index) := by
  refine ⟨?_, defaultGuid_length _ _, defaultGuid_take _ _, ?_, ?_⟩
  · simp only [SetVfDefaultGUID, hnew]
  · rw [defaultGuid_last, Option.map_some', byteOfInt_val]
  · intro h0 h1
    rw [defaultGuid_last, Option.map_some', byteOfInt_val, Int.emod_eq_of_lt h0 h1]

/-- For the VF of index 3 on an InfiniBand device, with the random value
`uuid0`: the GUID handed to both assignments ends in the byte 3. -/
theorem SetVfDefaultGUID_guid_witness :
    (demoSys demo0).NewV4 [] = (.ok uuid0, [.other "NewV4"]) ∧
      (SetVfDefaultGUID (demoSys demo0) handleIb 0 memIndex3 []).2
        = [.other "NewV4", .nodeGuid 3 [0x3a, 0x51, 0x07, 0xc2, 0x9e, 0x14, 0x4b, 3],
            .portGuid 3 [0x3a, 0x51, 0x07, 0xc2, 0x9e, 0x14, 0x4b, 3]] ∧
      ((defaultGuid uuid0 (memIndex3.objs 0).Index)[7]?.map fun b => (b.val : Int))
        = some (memIndex3.objs 0).Index :=
  ⟨rfl, by decide,
    (SetVfDefaultGUID_guid (demoSys demo0) handleIb 0 memIndex3 [] [.other "NewV4"] uuid0
      rfl).2.2.2.2 (by decide) (by decide)⟩

/-- Claim C10 (counterexample). For the VF of index 256 and the random value
`uuid0`, the GUID `SetVfDefaultGUID` hands to both assignments ends in the
byte 0, not in 256. -/
theorem SetVfDefaultGUID_final_byte_counterexample :
    (SetVfDefaultGUID (demoSys demo0) handleIb 0 memIndex256 []).2
        = [.other "NewV4", .nodeGuid 256 [0x3a, 0x51, 0x07, 0xc2, 0x9e, 0x14, 0x4b, 0],
            .portGuid 256 [0x3a, 0x51, 0x07, 0xc2, 0x9e, 0x14, 0x4b, 0]] ∧
      (memIndex256.objs 0).Index = 256 ∧
      ¬ (((defaultGuid uuid0 (memIndex256.objs 0).Index)[7]?.map fun b => (b.val : Int))
        = some (memIndex256.objs 0).Index) := by
  decide

/-- A query that returns a non-empty address did not fail: on failure
`GetVfDefaultMacAddr` returns the empty string. -/
theorem GetVfDefaultMacAddr_ok_of_eq {W : Type} (sys : Sys W) (name addr : String) (w : W)
    (haddr : addr ≠ "") (h : (GetVfDefaultMacAddr sys name w).1.1 = addr) :
    (GetVfDefaultMacAddr sys name w).1.2 = none := by
  unfold GetVfDefaultMacAddr at h ⊢
  rcases hl : sys.LinkByName name w with ⟨r, w1⟩
  cases r with
  | error e =>
    simp only [hl] at h
    exact absurd h.symm haddr
  | ok l => rfl

/-- The loop of `AllocateVfByMacAddress` for a non-empty requested address. -/
theorem AllocateVfByMacAddress.loop_spec {W : Type} (sys : Sys W) (handle : PfNetdevHandle)
    (addr : String) (haddr : addr ≠ "") (m : Mem) (l : List VfPtr) :
    ∀ w : W,
    (∀ vf, (AllocateVfByMacAddress.loop sys handle addr l m w).1 = .ok vf →
      ∃ pre post w0, l = pre ++ vf :: post ∧ Skipped sys addr m pre w w0 ∧
        (m.objs vf).Allocated = false ∧
        GetVfDefaultMacAddr sys (m.objs vf).NetdevName w0
          = ((addr, none), (AllocateVfByMacAddress.loop sys handle addr l m w).2.2) ∧
        (AllocateVfByMacAddress.loop sys handle addr l m w).2.1
          = m.write vf { m.objs vf with Allocated := true }) ∧
    (∀ e, (AllocateVfByMacAddress.loop sys handle addr l m w).1 = .error e →
      (AllocateVfByMacAddress.loop sys handle addr l m w).2.1 = m ∧
      Skipped sys addr m l w (AllocateVfByMacAddress.loop sys handle addr l m w).2.2) := by
  induction l with
  | nil =>
    intro w
    refine ⟨fun vf h => ?_, fun e _ => ⟨rfl, rfl⟩⟩
    simp [AllocateVfByMacAddress.loop] at h
  | cons q rest ih =>
    intro w
    by_cases hq : (m.objs q).Allocated = true
    · simp only [AllocateVfByMacAddress.loop, hq, if_true]
      refine ⟨fun vf h => ?_, fun e h => ?_⟩
      · obtain ⟨pre, post, w0, hl, hs, hrest⟩ := (ih w).1 vf h
        exact ⟨q :: pre, post, w0, by simp [hl], by simpa [Skipped, hq] using hs, hrest⟩
      · obtain ⟨h1, h2⟩ := (ih w).2 e h
        exact ⟨h1, by simpa [Skipped, hq] using h2⟩
    · rcases hg : GetVfDefaultMacAddr sys (m.objs q).NetdevName w with ⟨⟨macAddr, err⟩, w1⟩
      by_cases hmac : macAddr = addr
      · subst hmac
        have herr : err = none := by
          have := GetVfDefaultMacAddr_ok_of_eq sys (m.objs q).NetdevName macAddr w haddr
            (by rw [hg])
          rw [hg] at this
          exact this
        subst herr
        simp only [AllocateVfByMacAddress.loop, hq, hg, if_false, ne_eq, not_true_eq_false,
          Bool.false_eq_true]
        refine ⟨fun vf h => ?_, fun e h => ?_⟩
        · simp only [Except.ok.injEq] at h
          subst h
          exact ⟨[], rest, w, rfl, rfl, by simpa using hq, hg, rfl⟩
        · simp at h
      · simp only [AllocateVfByMacAddress.loop, hq, hg, if_false, ne_eq, hmac, not_false_eq_true,
          if_true, Bool.false_eq_true]
        have hskip : (GetVfDefaultMacAddr sys (m.objs q).NetdevName w).1.2 ≠ none ∨
            (GetVfDefaultMacAddr sys (m.objs q).NetdevName w).1.1 ≠ addr := by
          rw [hg]; exact Or.inr hmac
        have hw : (GetVfDefaultMacAddr sys (m.objs q).NetdevName w).2 = w1 := by rw [hg]
        refine ⟨fun vf h => ?_, fun e h => ?_⟩
        · obtain ⟨pre, post, w0, hl, hs, hrest⟩ := (ih w1).1 vf h
          refine ⟨q :: pre, post, w0, by simp [hl], ?_, hrest⟩
          simp only [Skipped, hq, if_false, Bool.false_eq_true]
          exact ⟨hskip, by rw [hw]; exact hs⟩
        · obtain ⟨h1, h2⟩ := (ih w1).2 e h
          refine ⟨h1, ?_⟩
          simp only [Skipped, hq, if_false, Bool.false_eq_true]
          exact ⟨hskip, by rw [hw]; exact h2⟩

/-- Claim C7 (amended). For a requested address other than the empty string:
when `AllocateVfByMacAddress` succeeds with `vf`, the list is `pre ++ vf :: post`
where every VF of `pre` was passed over (already allocated, or its query
failed, or its query returned another address), `vf` was unallocated, the
query of `vf` succeeded (its error is `nil`) with exactly the requested
address, and the store differs by the `Allocated` flag of `vf`, now true; when
it fails, the store is unchanged and every VF of the list was passed over. So
no VF whose query failed is allocated or returned. -/
theorem AllocateVfByMacAddress_spec {W : Type} (sys : Sys W) (handle : PfNetdevHandle)
    (vfMacAddress : String) (m : Mem) (w : W) (haddr : vfMacAddress ≠ "") :
    (∀ vf, (AllocateVfByMacAddress sys handle vfMacAddress m w).1 = .ok vf →
      ∃ pre post w0, handle.List = pre ++ vf :: post ∧
        Skipped sys vfMacAddress m pre w w0 ∧
        (m.objs vf).Allocated = false ∧
        GetVfDefaultMacAddr sys (m.objs vf).NetdevName w0
          = ((vfMacAddress, none), (AllocateVfByMacAddress sys handle vfMacAddress m w).2.2) ∧
        (AllocateVfByMacAddress sys handle vfMacAddress m w).2.1
          = m.write vf { m.objs vf with Allocated := true }) ∧
    (∀ e, (AllocateVfByMacAddress sys handle vfMacAddress m w).1 = .error e →
      (AllocateVfByMacAddress sys handle vfMacAddress m w).2.1 = m ∧
      Skipped sys vfMacAddress m handle.List w
        (AllocateVfByMacAddress sys handle vfMacAddress m w).2.2) :=
  AllocateVfByMacAddress.loop_spec sys handle vfMacAddress haddr m handle.List w

/-- With VF 0 (`eth1`, address `aa:bb:cc:dd:ee:ff`) and VF 1 (unbound) both
free, asking for `aa:bb:cc:dd:ee:ff` returns VF 0; asking for
`00:00:00:00:00:01` fails and passes over both VFs. -/
theorem AllocateVfByMacAddress_spec_witness :
    (∃ pre post w0, handle0.List = pre ++ 0 :: post ∧
        Skipped (demoSys demo0) "aa:bb:cc:dd:ee:ff" memFree pre [] w0 ∧
        (memFree.objs 0).Allocated = false ∧
        GetVfDefaultMacAddr (demoSys demo0) (memFree.objs 0).NetdevName w0
          = (("aa:bb:cc:dd:ee:ff", none),
              (AllocateVfByMacAddress (demoSys demo0) handle0 "aa:bb:cc:dd:ee:ff" memFree []).2.2) ∧
        (AllocateVfByMacAddress (demoSys demo0) handle0 "aa:bb:cc:dd:ee:ff" memFree []).2.1
          = memFree.write 0 { memFree.objs 0 with Allocated := true }) ∧
      Skipped (demoSys demo0) "00:00:00:00:00:01" memFree handle0.List []
        (AllocateVfByMacAddress (demoSys demo0) handle0 "00:00:00:00:00:01" memFree []).2.2 :=
  ⟨(AllocateVfByMacAddress_spec (demoSys demo0) handle0 "aa:bb:cc:dd:ee:ff" memFree []
      (by decide)).1 0 (by decide),
    ((AllocateVfByMacAddress_spec (demoSys demo0) handle0 "00:00:00:00:00:01" memFree []
      (by decide)).2 "All Vfs for pf0 are allocated." (by decide)).2⟩

/-- Claim C7 (counterexample). The requested address is the empty string; VF 0
is allocated and VF 1 is free and unbound. The hardware-address query of VF 1
fails, and `AllocateVfByMacAddress` returns VF 1 and marks it allocated. -/
theorem AllocateVfByMacAddress_counterexample :
    (mem0.objs 1).Allocated = false ∧
      (GetVfDefaultMacAddr (demoSys demo0) (mem0.objs 1).NetdevName []).1
        = ("", some "Link not found") ∧
      (AllocateVfByMacAddress (demoSys demo0) handle0 "" mem0 []).1 = .ok 1 ∧
      ((AllocateVfByMacAddress (demoSys demo0) handle0 "" mem0 []).2.1.objs 1).Allocated
        = true := by
  decide

/-- The record discovery builds satisfies the invariant. -/
theorem BoundInv_newVfObj {W : Type} (sys : Sys W) (vfDir vfNetdevName : String) :
    BoundInv (newVfObj sys vfDir vfNetdevName) := by
  unfold BoundInv newVfObj
  by_cases h : vfNetdevName = "" <;> simp [h]

/-- A write that changes only the `Allocated` flag keeps the invariant of
every record. -/
theorem BoundInv_write_flag (m : Mem) (p q : VfPtr) (b : Bool) (h : BoundInv (m.objs q)) :
    BoundInv ((m.write p { m.objs p with Allocated := b }).objs q) := by
  by_cases hq : q = p
  · subst hq
    rw [Mem.write_objs_same]
    exact h
  · rw [Mem.write_objs_other m p q _ hq]
    exact h

/-- The loop of `GetPfNetdevHandle` only allocates: old records stay, every
record allocated satisfies the invariant, and the list gains only addresses
allocated by the loop. -/
theorem GetPfNetdevHandle.loop_inv {W : Type} (sys : Sys W) (pf : String) (list : List String) :
    ∀ (acc : List VfPtr) (m : Mem) (w : W),
      m.next ≤ (GetPfNetdevHandle.loop sys pf list acc m w).2.1.next ∧
      (∀ q : Nat, q < m.next →
        (GetPfNetdevHandle.loop sys pf list acc m w).2.1.objs q = m.objs q) ∧
      (∀ q : Nat, m.next ≤ q → q < (GetPfNetdevHandle.loop sys pf list acc m w).2.1.next →
        BoundInv ((GetPfNetdevHandle.loop sys pf list acc m w).2.1.objs q)) ∧
      (∀ p : Nat, p ∈ (GetPfNetdevHandle.loop sys pf list acc m w).1 →
        p ∈ acc ∨ (m.next ≤ p ∧ p < (GetPfNetdevHandle.loop sys pf list acc m w).2.1.next)) := by
  induction list with
  | nil =>
    intro acc m w
    exact ⟨Nat.le_refl _, fun _ _ => rfl, fun q h1 h2 => absurd h2 (Nat.not_lt.mpr h1),
      fun p hp => Or.inl hp⟩
  | cons vfDir rest ih =>
    intro acc m w
    rcases hn : sys.vfNetdevNameFromParent pf vfDir w with ⟨name, w1⟩
    simp only [GetPfNetdevHandle.loop, hn, Mem.alloc]
    obtain ⟨h1, h2, h3, h4⟩ := ih (acc ++ [m.next])
      { objs := fun q => if q = m.next then newVfObj sys vfDir name else m.objs q,
        next := m.next + 1 } w1
    simp only at h1 h2 h3 h4
    refine ⟨by omega, ?_, ?_, ?_⟩
    · intro q hq
      rw [h2 q (by omega)]
      simp [Nat.ne_of_lt hq]
    · intro q hq1 hq2
      by_cases hq : q = m.next
      · rw [h2 q (by omega)]
        simp only [hq, if_true]
        exact BoundInv_newVfObj sys vfDir name
      · exact h3 q (by omega) hq2
    · intro p hp
      rcases h4 p hp with h | h
      · rcases List.mem_append.mp h with h | h
        · exact Or.inl h
        · simp only [List.mem_singleton] at h
          exact Or.inr ⟨by omega, by omega⟩
      · exact Or.inr ⟨by omega, h.2⟩

/-- The loop of `AllocateVfByMacAddress` keeps the invariant of every record. -/
theorem AllocateVfByMacAddress.loop_keeps_BoundInv {W : Type} (sys : Sys W) (handle : PfNetdevHandle)
    (addr : String) (m : Mem) (q : VfPtr) (h : BoundInv (m.objs q)) (l : List VfPtr) :
    ∀ w : W, BoundInv ((AllocateVfByMacAddress.loop sys handle addr l m w).2.1.objs q) := by
  induction l with
  | nil => intro w; exact h
  | cons p rest ih =>
    intro w
    by_cases hp : (m.objs p).Allocated = true
    · simp only [AllocateVfByMacAddress.loop, hp, if_true]
      exact ih w
    · rcases hg : GetVfDefaultMacAddr sys (m.objs p).NetdevName w with ⟨⟨macAddr, err⟩, w1⟩
      by_cases hmac : macAddr = addr
      · simp only [AllocateVfByMacAddress.loop, hp, hg, hmac, if_false, ne_eq,
          not_true_eq_false, Bool.false_eq_true]
        exact BoundInv_write_flag m p q true h
      · simp only [AllocateVfByMacAddress.loop, hp, hg, hmac, if_false, ne_eq,
          not_false_eq_true, if_true, Bool.false_eq_true]
        exact ih w1

/-- The loop of `FreeVfByNetdevName` keeps the invariant of every record. -/
theorem FreeVfByNetdevName.loop_preserves_BoundInv (name : String) (m : Mem) (q : VfPtr)
    (h : BoundInv (m.objs q)) (l : List VfPtr) :
    BoundInv ((FreeVfByNetdevName.loop name l m).2.objs q) := by
  induction l with
  | nil => exact h
  | cons p rest ih =>
    by_cases hp : (m.objs p).Allocated = true ∧ (m.objs p).NetdevName = name
    · simp only [FreeVfByNetdevName.loop]
      rw [if_pos hp]
      exact BoundInv_write_flag m p q true h
    · simp only [FreeVfByNetdevName.loop, hp, if_false]
      exact ih

/-- The loop of `AllocateVf` keeps the invariant of every record. -/
theorem AllocateVf.loop_BoundInv (handle : PfNetdevHandle) (m : Mem) (q : VfPtr)
    (h : BoundInv (m.objs q)) (l : List VfPtr) :
    BoundInv ((AllocateVf.loop handle l m).2.objs q) := by
  induction l with
  | nil => exact h
  | cons p rest ih =>
    by_cases hp : (m.objs p).Allocated = true
    · simp only [AllocateVf.loop, hp, if_true]
      exact ih
    · simp only [AllocateVf.loop, hp, if_false, Bool.false_eq_true]
      exact BoundInv_write_flag m p q true h

/-- Claim C9. `Bound == false` implies `NetdevName == ""` for every record of
the list `GetPfNetdevHandle` produces; and whatever the outcome of their I/O,
`UnbindVf` and `BindVf` (on the success and on the failure branch alike),
`AllocateVf`, `AllocateVfByMacAddress`, `FreeVf` and `FreeVfByNetdevName` keep
the predicate true of every record of which it was true. -/
theorem BoundInv_preserved {W : Type} (sys : Sys W) :
    (∀ (pfNetdevName : String) (m : Mem) (w : W) (handle : PfNetdevHandle),
      (GetPfNetdevHandle sys pfNetdevName m w).1 = .ok handle →
      ∀ p ∈ handle.List, BoundInv ((GetPfNetdevHandle sys pfNetdevName m w).2.1.objs p)) ∧
    (∀ (handle : PfNetdevHandle) (vf : VfPtr) (m : Mem) (w : W) (q : VfPtr),
      BoundInv (m.objs q) → BoundInv ((UnbindVf sys handle vf m w).2.1.objs q)) ∧
    (∀ (handle : PfNetdevHandle) (vf : VfPtr) (m : Mem) (w : W) (q : VfPtr),
      BoundInv (m.objs q) → BoundInv ((BindVf sys handle vf m w).2.1.objs q)) ∧
    (∀ (handle : PfNetdevHandle) (m : Mem) (q : VfPtr),
      BoundInv (m.objs q) → BoundInv ((AllocateVf handle m).2.objs q)) ∧
    (∀ (handle : PfNetdevHandle) (vfMacAddress : String) (m : Mem) (w : W) (q : VfPtr),
      BoundInv (m.objs q) →
      BoundInv ((AllocateVfByMacAddress sys handle vfMacAddress m w).2.1.objs q)) ∧
    (∀ (handle : PfNetdevHandle) (vf : VfPtr) (m : Mem) (q : VfPtr),
      BoundInv (m.objs q) → BoundInv ((FreeVf handle vf m).objs q)) ∧
    (∀ (handle : PfNetdevHandle) (vfNetdevName : String) (m : Mem) (q : VfPtr),
      BoundInv (m.objs q) → BoundInv ((FreeVfByNetdevName handle vfNetdevName m).2.objs q)) := by
  refine ⟨?_, ?_, ?_, ?_, ?_, ?_, ?_⟩
  · intro pf m w handle hok p hp
    unfold GetPfNetdevHandle at hok ⊢
    rcases hl : sys.LinkByName pf w with ⟨r, w1⟩
    cases r with
    | error e => simp [hl] at hok
    | ok link =>
      rcases hd : sys.getVfPciDevList pf w1 with ⟨⟨list, err⟩, w2⟩
      cases err with
      | some e => simp [hl, hd] at hok
      | none =>
        simp only [hl, hd, Except.ok.injEq] at hok ⊢
        obtain ⟨_, _, h3, h4⟩ := GetPfNetdevHandle.loop_inv sys pf list [] m w2
        rw [← hok] at hp
        rcases h4 p hp with h | h
        · cases h
        · exact h3 p h.1 h.2
  · intro handle vf m w q h
    unfold UnbindVf
    rcases hp : sys.vfPCIDevNameFromVfDir handle.PfNetdevName (m.objs vf).PcidevName w
      with ⟨pci, w1⟩
    rcases hw : sys.fileWrite
      (sys.filepathJoin
        [sys.netSysDir, handle.PfNetdevName, sys.netdevDriverDir, sys.netdevUnbindFile])
      pci w1 with ⟨err, w2⟩
    cases err with
    | none => simpa [hw] using h
    | some e =>
      simp only [hw, ne_eq, reduceCtorEq, not_false_eq_true, if_true]
      by_cases hq : q = vf
      · subst hq
        rw [Mem.write_objs_same]
        intro _; rfl
      · rw [Mem.write_objs_other m vf q _ hq]
        exact h
  · intro handle vf m w q h
    unfold BindVf
    rcases hp : sys.vfPCIDevNameFromVfDir handle.PfNetdevName (m.objs vf).PcidevName w
      with ⟨pci, w1⟩
    rcases hw : sys.fileWrite
      (sys.filepathJoin
        [sys.netSysDir, handle.PfNetdevName, sys.netdevDriverDir, sys.netdevBindFile])
      pci w1 with ⟨err, w2⟩
    cases err with
    | none => simpa [hw] using h
    | some e =>
      simp only [hw, ne_eq, reduceCtorEq, not_false_eq_true, if_true]
      by_cases hq : q = vf
      · subst hq
        rw [Mem.write_objs_same]
        intro hb; cases hb
      · rw [Mem.write_objs_other m vf q _ hq]
        exact h
  · intro handle m q h
    exact AllocateVf.loop_BoundInv handle m q h handle.List
  · intro handle addr m w q h
    exact AllocateVfByMacAddress.loop_keeps_BoundInv sys handle addr m q h handle.List w
  · intro handle vf m q h
    exact BoundInv_write_flag m vf q false h
  · intro handle name m q h
    exact FreeVfByNetdevName.loop_preserves_BoundInv name m q h handle.List

/-- Discovery of `pf0` yields two records that satisfy the invariant; the
record of VF 0 still satisfies it after a failed `UnbindVf` and after a failed
`BindVf`. -/
theorem BoundInv_preserved_witness :
    (∀ p ∈ [0, 1],
      BoundInv ((GetPfNetdevHandle (demoSys demo0) "pf0" (memOf []) []).2.1.objs p)) ∧
      BoundInv ((UnbindVf (demoSys demoWriteFails) handle0 0 mem0 []).2.1.objs 0) ∧
      BoundInv ((BindVf (demoSys demoWriteFails) handle0 0 mem0 []).2.1.objs 0) :=
  ⟨(BoundInv_preserved (demoSys demo0)).1 "pf0" (memOf []) []
      ⟨"pf0", ⟨"ether", [0x24, 0x8a, 0x07, 0, 0, 0x10]⟩, [0, 1]⟩ (by decide),
    (BoundInv_preserved (demoSys demoWriteFails)).2.1 handle0 0 mem0 [] 0 (by decide),
    (BoundInv_preserved (demoSys demoWriteFails)).2.2.1 handle0 0 mem0 [] 0 (by decide)⟩

end Sriovnet
